import Mathlib

/-!
Verification of the tiled-json decoding pipeline (a Rust reader for the Tiled
map editor's JSON export format) against its natural-language specification.

The development shallowly embeds the crate's decoding core:
`src/utils.rs` (tile-data codec, color parser), `src/properties.rs`
(custom-properties decoder), `src/tileset.rs` and `src/lib.rs` (shape/layer/map
resolution).  JSON trees are modelled by an inductive `Value` mirroring
`serde_json::Value`; strings are Lean `String`s, machine integers are `Nat`s
with explicit `% 2 ^ 32` where u32 wrapping matters, and fallible Rust code
returns `Except`.  The two external byte-level collaborators of the codec —
the `base64` crate and the `libflate` zlib/gzip decompressors — are not part
of the repository; they are modelled concretely from the specification's
collaborator contract so that the codec's round-trip behaviour is executable
and provable.
-/

namespace Tiled

/-! ## JSON value model (serde_json)

`serde_json::Number` stores a non-negative integer (u64), a negative integer
(i64), or a float; `as_u64` succeeds only on the first form.  The float payload
is irrelevant to every property proved here (floats are never interpreted as
integers by the code), so it is not carried. -/

inductive JNum where
  | posInt (n : Nat)
  | negInt (n : Int)
  | float
deriving DecidableEq, Repr

inductive Value where
  | null
  | bool (b : Bool)
  | num (n : JNum)
  | str (s : String)
  | arr (elems : List Value)
  | obj (fields : List (String × Value))

/-- `serde_json::Value::as_u64`: `Some` exactly for non-negative integers. -/
def Value.asU64 : Value → Option Nat
  | .num (.posInt n) => some n
  | _ => none

/-- `serde_json::Value::as_str`. -/
def Value.asStr : Value → Option String
  | .str s => some s
  | _ => none

/-- `serde_json::Value::as_array`. -/
def Value.asArray : Value → Option (List Value)
  | .arr elems => some elems
  | _ => none

/-- Field lookup in a JSON object (first occurrence of the key). -/
def lookupField (fields : List (String × Value)) (key : String) : Option Value :=
  (fields.find? (fun p => p.1 == key)).map (fun p => p.2)

/-! ## Error type (`src/error.rs`)

`TiledError`'s payloads (`std::io::Error`, `serde_json::Error`,
`base64::DecodeError`) are modelled by their message strings. -/

inductive TiledError where
  | decompressingError (msg : String)
  | parsingError (msg : String)
  | base64DecodingError (msg : String)
  | other (msg : String)
deriving DecidableEq, Repr

/-! ## Compression and encoding tags (`src/utils.rs`) -/

inductive Compression where
  | zlib
  | gzip
deriving DecidableEq, Repr

inductive Encoding where
  | csv
  | base64
deriving DecidableEq, Repr

/-! ## Base64 (external `base64` crate)

Modelled from the spec: the codec's base64 stage uses the external `base64`
crate (`base64::decode`, standard alphabet with mandatory `=` padding and
canonical zero trailing bits).  The encoder below produces the standard padded
encoding and exists to state round-trip properties. -/

/-- Character of the standard base64 alphabet for a 6-bit value. -/
def b64Char (s : Nat) : Char :=
  if s < 26 then Char.ofNat (65 + s)
  else if s < 52 then Char.ofNat (71 + s)
  else if s < 62 then Char.ofNat (s - 4)
  else if s = 62 then '+' else '/'

/-- Inverse of the standard base64 alphabet. -/
def b64CharVal (c : Char) : Option Nat :=
  if 'A' ≤ c ∧ c ≤ 'Z' then some (c.toNat - 65)
  else if 'a' ≤ c ∧ c ≤ 'z' then some (c.toNat - 97 + 26)
  else if '0' ≤ c ∧ c ≤ '9' then some (c.toNat - 48 + 52)
  else if c = '+' then some 62
  else if c = '/' then some 63
  else none

/-- Standard padded base64 encoding of a byte sequence. -/
def b64encodeBytes : List Nat → List Char
  | [] => []
  | [a] => [b64Char (a / 4), b64Char (a % 4 * 16), '=', '=']
  | [a, b] => [b64Char (a / 4), b64Char (a % 4 * 16 + b / 16), b64Char (b % 16 * 4), '=']
  | a :: b :: c :: rest =>
    b64Char (a / 4) :: b64Char (a % 4 * 16 + b / 16) :: b64Char (b % 16 * 4 + c / 64) ::
      b64Char (c % 64) :: b64encodeBytes rest

/-- Modelled from the spec: `base64::decode` with the standard configuration,
recovering the byte sequence or failing on invalid characters, invalid length,
misplaced padding or non-zero trailing bits. -/
def b64decodeChars : List Char → Except String (List Nat)
  | [] => .ok []
  | c0 :: c1 :: c2 :: c3 :: rest =>
    match b64CharVal c0, b64CharVal c1 with
    | some s0, some s1 =>
      if c2 = '=' then
        if c3 = '=' ∧ rest = [] ∧ s1 % 16 = 0 then .ok [s0 * 4 + s1 / 16]
        else .error "Invalid padding"
      else
        match b64CharVal c2 with
        | some s2 =>
          if c3 = '=' then
            if rest = [] ∧ s2 % 4 = 0 then .ok [s0 * 4 + s1 / 16, s1 % 16 * 16 + s2 / 4]
            else .error "Invalid padding"
          else
            match b64CharVal c3 with
            | some s3 =>
              match b64decodeChars rest with
              | .ok bs =>
                .ok ((s0 * 4 + s1 / 16) :: (s1 % 16 * 16 + s2 / 4) :: (s2 % 4 * 64 + s3) :: bs)
              | .error e => .error e
            | none => .error "Invalid byte"
        | none => .error "Invalid byte"
    | _, _ => .error "Invalid byte"
  | _ => .error "Invalid length"

/-! ## str::trim (Rust standard library)

`data.trim()` strips leading and trailing Unicode-whitespace characters. -/

/-- Code points with the Unicode White_Space property (Rust
`char::is_whitespace`). -/
def wsCodes : List Nat :=
  [9, 10, 11, 12, 13, 32, 133, 160, 5760,
   8192, 8193, 8194, 8195, 8196, 8197, 8198, 8199, 8200, 8201, 8202,
   8232, 8233, 8239, 8287, 12288]

def isRustWs (c : Char) : Bool := wsCodes.contains c.toNat

/-- Rust `str::trim` on the character sequence of a string. -/
def trimChars (l : List Char) : List Char :=
  ((l.dropWhile isRustWs).reverse.dropWhile isRustWs).reverse

/-! ## zlib (external `libflate` crate)

Modelled from the spec: `decode_zlib` hands the byte buffer to the external
`libflate` zlib decoder, which returns the fully inflated byte buffer or a
failure carrying the cause (`src/utils.rs` wraps that in
`TiledError::DecompressingError`).  The model below parses the zlib wrapper
(2-byte header, DEFLATE stream, Adler-32 trailer) and inflates stored
(uncompressed) DEFLATE blocks, which is the fragment every compressed stream
in this development uses; Huffman-coded block types are reported as a
decompression failure. -/

def adlerStep : Nat × Nat → Nat → Nat × Nat
  | (s1, s2), b =>
    let s1' := (s1 + b) % 65521
    (s1', (s2 + s1') % 65521)

def adler32 (bytes : List Nat) : Nat :=
  let p := bytes.foldl adlerStep (1, 0)
  p.2 * 65536 + p.1

/-- Big-endian bytes of the Adler-32 checksum (the zlib trailer). -/
def adlerBytesBE (bytes : List Nat) : List Nat :=
  let a := adler32 bytes
  [a / 16777216 % 256, a / 65536 % 256, a / 256 % 256, a % 256]

/-- Parse a sequence of stored DEFLATE blocks.  Returns the inflated payload
and the bytes following the final block.  A stored block is a header byte with
BTYPE = 00 (bits 1–2) and BFINAL in bit 0, followed by the little-endian
16-bit payload length, its ones-complement, and the raw payload bytes.
`fuel` bounds the number of blocks. -/
def parseBlocksF : Nat → List Nat → Except String (List Nat × List Nat)
  | 0, _ => .error "unexpected end of deflate stream"
  | _ + 1, [] => .error "unexpected end of deflate stream"
  | f + 1, hdr :: rest =>
    if hdr / 2 % 4 = 0 then
      match rest with
      | l0 :: l1 :: n0 :: n1 :: tail =>
        let len := l0 + 256 * l1
        if n0 + 256 * n1 = 65535 - len then
          if len ≤ tail.length then
            if hdr % 2 = 1 then .ok (tail.take len, tail.drop len)
            else
              match parseBlocksF f (tail.drop len) with
              | .ok (payload, trailer) => .ok (tail.take len ++ payload, trailer)
              | .error e => .error e
          else .error "stored block truncated"
        else .error "corrupt stored block length"
      | _ => .error "stored block header truncated"
    else .error "unsupported deflate block type"

/-- Modelled from the spec (external collaborator): zlib decompression as
`libflate::zlib::Decoder` performs it — check the 2-byte zlib header
(compression method 8, header checksum divisible by 31), inflate the DEFLATE
stream, and verify the Adler-32 trailer over the inflated bytes. -/
def decode_zlib (data : List Nat) : Except TiledError (List Nat) :=
  match data with
  | cmf :: flg :: rest =>
    if cmf % 16 = 8 ∧ (cmf * 256 + flg) % 31 = 0 then
      match parseBlocksF (rest.length + 1) rest with
      | .ok (payload, trailer) =>
        if trailer = adlerBytesBE payload then .ok payload
        else .error (.decompressingError "adler32 checksum mismatch")
      | .error e => .error (.decompressingError e)
    else .error (.decompressingError "invalid zlib header")
  | _ => .error (.decompressingError "truncated zlib stream")

/-- Modelled from the spec (external collaborator): gzip decompression as
`libflate::gzip::Decoder` performs it — check the 10-byte gzip header, inflate
the DEFLATE stream, and verify the 8-byte trailer (CRC-32 and length modulo
2^32; the CRC word is abstracted, the length word is checked).  No claim
exercises the gzip path. -/
def decode_gzip (data : List Nat) : Except TiledError (List Nat) :=
  match data with
  | 31 :: 139 :: 8 :: 0 :: _ :: _ :: _ :: _ :: _ :: _ :: rest =>
    match parseBlocksF (rest.length + 1) rest with
    | .ok (payload, trailer) =>
      if trailer.length = 8 ∧
          trailer.drop 4 =
            [payload.length % 256, payload.length / 256 % 256,
             payload.length / 65536 % 256, payload.length / 16777216 % 256] then
        .ok payload
      else .error (.decompressingError "corrupt gzip trailer")
    | .error e => .error (.decompressingError e)
  | _ => .error (.decompressingError "invalid gzip header")

/-- Reference compressor for round-trip statements: a valid zlib stream made
of stored DEFLATE blocks (at most 65535 payload bytes each), with the
standard `78 01` header and the Adler-32 trailer.  `fuel` bounds the block
count; `zlibCompress` supplies enough. -/
def storedBlockFinal (b : List Nat) : List Nat :=
  1 :: b.length % 256 :: b.length / 256 :: (65535 - b.length) % 256 ::
    (65535 - b.length) / 256 :: b

def deflateStoredF : Nat → List Nat → List Nat
  | 0, b => storedBlockFinal b
  | f + 1, b =>
    if b.length ≤ 65535 then storedBlockFinal b
    else 0 :: 255 :: 255 :: 0 :: 0 :: (b.take 65535 ++ deflateStoredF f (b.drop 65535))

def zlibCompress (b : List Nat) : List Nat :=
  120 :: 1 :: (deflateStoredF b.length b ++ adlerBytesBE b)

/-! ## Tile-data codec (`src/utils.rs`) -/

/-- The loop of `decode_base64_tiledata` reading u32s from the byte buffer:
`bytes.chunks(4)` with `u32::from_le_bytes(chunk.try_into()?)`.  A trailing
chunk shorter than 4 bytes makes `try_into` fail with `TryFromSliceError(())`,
which the source wraps as `TiledError::Other(format!("{:?}", err))`. -/
def chunksToTiles : List Nat → Except TiledError (List Nat)
  | [] => .ok []
  | b0 :: b1 :: b2 :: b3 :: rest =>
    match chunksToTiles rest with
    | .ok ts => .ok ((b0 + 256 * b1 + 65536 * b2 + 16777216 * b3) :: ts)
    | .error e => .error e
  | _ => .error (.other "TryFromSliceError(())")

/-- The byte-producing stages of `decode_base64_tiledata`: trim the string,
base64-decode it (`TiledError::Base64DecodingError` on failure), then
optionally decompress according to the compression tag. -/
def b64Buffer (s : String) (compression : Option Compression) :
    Except TiledError (List Nat) :=
  match (b64decodeChars (trimChars s.data)).mapError TiledError.base64DecodingError with
  | .ok bytes =>
    match compression with
    | some .gzip => decode_gzip bytes
    | some .zlib => decode_zlib bytes
    | none => .ok bytes
  | .error e => .error e

/-- `decode_base64_tiledata` (src/utils.rs:68-99): `data` must be a JSON
string (`TiledError::Other` otherwise); its bytes go through trimming, base64
decoding and optional decompression, and the result is split into 4-byte
little-endian u32 chunks. -/
def decode_base64_tiledata (data : Value) (compression : Option Compression) :
    Except TiledError (List Nat) :=
  match data.asStr with
  | some s =>
    match b64Buffer s compression with
    | .ok bytes => chunksToTiles bytes
    | .error e => .error e
  | none => .error (.other "Improperly formatted data")

/-- `decode_csv_tiledata` (src/utils.rs:102-116): `data` must be a JSON array;
each element with `as_u64 = Some v` is pushed as `v as u32` (truncation
mod 2^32), all other elements are skipped; a non-array is
`TiledError::Other`. -/
def decode_csv_tiledata (data : Value) : Except TiledError (List Nat) :=
  match data.asArray with
  | some elems => .ok (elems.filterMap (fun v => (Value.asU64 v).map (· % 4294967296)))
  | none => .error (.other "Improperly formatted data")

/-- `decode_tiledata` (src/utils.rs:47-65).  `width` and `height` only pre-size
the output vector (`Vec::with_capacity(width * height)`), a capacity hint with
no effect on the decoded value; the dispatch is on the encoding tag, CSV being
the default. -/
def decode_tiledata (data : Value) (width height : Nat) (encoding : Option Encoding)
    (compression : Option Compression) : Except TiledError (List Nat) :=
  match encoding with
  | some .base64 => decode_base64_tiledata data compression
  | some .csv => decode_csv_tiledata data
  | none => decode_csv_tiledata data

/-- Serialization of a tile-ID sequence as 4 little-endian bytes each, for
round-trip statements. -/
def tilesToLEBytes : List Nat → List Nat
  | [] => []
  | id :: rest =>
    id % 256 :: id / 256 % 256 :: id / 65536 % 256 :: id / 16777216 % 256 ::
      tilesToLEBytes rest

/-! ## Color parsing (`src/utils.rs:128-170`) -/

/-- Color as rgba (`Color([u8; 4])`). -/
structure Color where
  r : Nat
  g : Nat
  b : Nat
  a : Nat
deriving DecidableEq, Repr

/-- One hexadecimal digit of `u8::from_str_radix(_, 16)` (code points of
`0-9`, `a-f`, `A-F`). -/
def hexDigitVal (c : Char) : Option Nat :=
  if 48 ≤ c.toNat ∧ c.toNat ≤ 57 then some (c.toNat - 48)
  else if 97 ≤ c.toNat ∧ c.toNat ≤ 102 then some (c.toNat - 87)
  else if 65 ≤ c.toNat ∧ c.toNat ≤ 70 then some (c.toNat - 55)
  else none

/-- One digit step of `from_str_radix`: multiply the accumulator by the radix
and add the digit, failing on a non-digit or on overflow beyond `u8::MAX`. -/
def radix16Step (acc : Option Nat) (c : Char) : Option Nat :=
  match acc, hexDigitVal c with
  | some v, some d => if 16 * v + d ≤ 255 then some (16 * v + d) else none
  | _, _ => none

/-- Rust `u8::from_str_radix(s, 16)`: an optional leading `+` sign followed by
one or more hex digits, with overflow beyond `u8::MAX` rejected.  `none`
models `Err(ParseIntError)`. -/
def fromStrRadix16U8 (cs : List Char) : Option Nat :=
  let ds := if cs.head? = some '+' then cs.tail else cs
  if ds.isEmpty then none
  else ds.foldl radix16Step (some 0)

/-- The loop of `Color::from_str`: read consecutive 2-character groups with
`u8::from_str_radix(_, 16)`; any failing group aborts with
`TiledError::Other("Invalid color value ...")` naming the offending string. -/
def parsePairs (s : List Char) : List Char → Except TiledError (List Nat)
  | [] => .ok []
  | c1 :: c2 :: rest =>
    match fromStrRadix16U8 [c1, c2] with
    | some v =>
      match parsePairs s rest with
      | .ok vs => .ok (v :: vs)
      | .error e => .error e
    | none => .error (.other ("Invalid color value " ++ String.mk s))
  | _ => .error (.other ("Invalid color value " ++ String.mk s))

/-- The `'#'` strip at the top of `Color::from_str`
(`if s.starts_with('#') { &s[1..] } else { s }`). -/
def stripHash (s : List Char) : List Char :=
  if s.head? = some '#' then s.tail else s

/-- `Color::from_str` (src/utils.rs:133-160): strip an optional `#`; the rest
must be exactly 6 or 8 characters; parse 2-character hex groups into bytes
over an array initialized to 255; 8 characters are stored as ARGB and
reordered to RGBA, 6 characters keep the default alpha 255.  The embedding
works on the string's characters; the claims' inputs are ASCII, where
character positions and Rust's byte positions coincide. -/
def Color.fromStr (s0 : List Char) : Except TiledError Color :=
  let s := stripHash s0
  if s.length ≠ 6 ∧ s.length ≠ 8 then
    .error (.other ("Invalid color value " ++ String.mk s))
  else
    match parsePairs s s with
    | .ok bs =>
      let c0 := bs.getD 0 255
      let c1 := bs.getD 1 255
      let c2 := bs.getD 2 255
      let c3 := bs.getD 3 255
      if s.length = 8 then .ok ⟨c1, c2, c3, c0⟩ else .ok ⟨c0, c1, c2, c3⟩
    | .error e => .error e

/-! ## Tile layers (`src/lib.rs:165-220`) -/

/-- The intermediate record `TileLayerData` the JSON deserializes into. -/
structure TileLayerData where
  width : Nat
  height : Nat
  data : Value
  compression : Option Compression
  encoding : Option Encoding

structure TileLayer where
  width : Nat
  height : Nat
  tiles : List Nat

/-- `TileLayer::from` (src/lib.rs:190-202): run the tile-data codec on the
intermediate record. -/
def TileLayer.fromData (layer_data : TileLayerData) : Except TiledError TileLayer :=
  match decode_tiledata layer_data.data layer_data.width layer_data.height
      layer_data.encoding layer_data.compression with
  | .ok tiles => .ok ⟨layer_data.width, layer_data.height, tiles⟩
  | .error e => .error e

/-- `TileLayer::get_tile` (src/lib.rs:206-208): unchecked indexing
`self.tiles[(x + y * self.width) as usize]` with wrapping u32 arithmetic;
`none` models the index-out-of-bounds panic. -/
def TileLayer.get_tile (l : TileLayer) (x y : Nat) : Option Nat :=
  l.tiles.get? ((x + y * l.width) % 4294967296)

/-! ## Custom properties (`src/properties.rs`)

Serde-level decoding failures are modelled as `Except String`; the message
strings stand for `serde_json::Error` values. -/

/-- `Property`: internally tagged by `type` with the payload under `value`. -/
inductive Property where
  | bool (b : Bool)
  | float (n : JNum)
  | int (n : Int)
  | color (c : Color)
  | string (s : String)
  | file (s : String)
deriving DecidableEq, Repr

/-- Model of `HashMap<String, Property>`: an association list without
duplicate keys. -/
abbrev Properties := List (String × Property)

/-- `HashMap::insert`, modelled observationally on the association list: the
new binding shadows (and removes) any earlier binding of the same name. -/
def insertProp (m : Properties) (k : String) (v : Property) : Properties :=
  (k, v) :: m.filter (fun p => p.1 != k)

/-- `HashMap::get`. -/
def getProp (m : Properties) (k : String) : Option Property :=
  (m.find? (fun p => p.1 == k)).map (fun p => p.2)

/-- The message of a `TiledError`, as `Display` renders it (`src/error.rs`). -/
def TiledError.message : TiledError → String
  | .decompressingError m => m
  | .parsingError m => m
  | .base64DecodingError m => m
  | .other m => m

/-- serde `u32` deserialization from a JSON value. -/
def fieldU32 (fields : List (String × Value)) (key : String) : Except String Nat :=
  match lookupField fields key with
  | some (.num (.posInt n)) =>
    if n ≤ 4294967295 then .ok n else .error ("u32 out of range for " ++ key)
  | some _ => .error ("invalid type for " ++ key)
  | none => .error ("missing field " ++ key)

/-- serde `String` deserialization. -/
def fieldStr (fields : List (String × Value)) (key : String) : Except String String :=
  match lookupField fields key with
  | some (.str s) => .ok s
  | some _ => .error ("invalid type for " ++ key)
  | none => .error ("missing field " ++ key)

/-- serde `bool` deserialization. -/
def fieldBool (fields : List (String × Value)) (key : String) : Except String Bool :=
  match lookupField fields key with
  | some (.bool b) => .ok b
  | some _ => .error ("invalid type for " ++ key)
  | none => .error ("missing field " ++ key)

/-- serde `f32` deserialization: any JSON number is accepted; the numeric
payload is kept as the JSON number (no claim computes with float values). -/
def fieldNum (fields : List (String × Value)) (key : String) : Except String JNum :=
  match lookupField fields key with
  | some (.num n) => .ok n
  | some _ => .error ("invalid type for " ++ key)
  | none => .error ("missing field " ++ key)

/-- serde `Option<Color>` field: missing or null is `None`; a present value
must be a string accepted by `Color::from_str` (`Color::deserialize` wraps the
`TiledError` with `de::Error::custom`). -/
def fieldOptColor (fields : List (String × Value)) (key : String) :
    Except String (Option Color) :=
  match lookupField fields key with
  | none => .ok none
  | some .null => .ok none
  | some (.str s) =>
    match Color.fromStr s.data with
    | .ok c => .ok (some c)
    | .error e => .error e.message
  | some _ => .error ("invalid type for " ++ key)

/-- serde `bool` deserialization of a bare value. -/
def decodeBoolV : Value → Except String Bool
  | .bool b => .ok b
  | _ => .error "invalid type: expected boolean"

/-- serde `String` deserialization of a bare value. -/
def decodeStrV : Value → Except String String
  | .str s => .ok s
  | _ => .error "invalid type: expected string"

/-- serde `f32` deserialization of a bare value (payload kept as the JSON
number). -/
def decodeNumV : Value → Except String JNum
  | .num n => .ok n
  | _ => .error "invalid type: expected number"

/-- serde `i32` deserialization of a bare value. -/
def decodeI32V : Value → Except String Int
  | .num (.posInt n) =>
    if n ≤ 2147483647 then .ok (Int.ofNat n) else .error "i32 out of range"
  | .num (.negInt i) =>
    if -2147483648 ≤ i then .ok i else .error "i32 out of range"
  | _ => .error "invalid type: expected integer"

/-- `Color::deserialize` of a bare value: a string run through
`Color::from_str`. -/
def decodeColorV : Value → Except String Color
  | .str s =>
    match Color.fromStr s.data with
    | .ok c => .ok c
    | .error e => .error e.message
  | _ => .error "invalid type: expected string"

/-- The flattened `Property` part of a `{name, type, value}` record:
the `type` tag selects how `value` is decoded. -/
def decodeProperty (fields : List (String × Value)) : Except String Property :=
  match lookupField fields "type" with
  | some (.str tag) =>
    match lookupField fields "value" with
    | some v =>
      if tag = "bool" then (decodeBoolV v).map .bool
      else if tag = "float" then (decodeNumV v).map .float
      else if tag = "int" then (decodeI32V v).map .int
      else if tag = "color" then (decodeColorV v).map .color
      else if tag = "string" then (decodeStrV v).map .string
      else if tag = "file" then (decodeStrV v).map .file
      else .error ("unknown variant " ++ tag)
    | none => .error "missing field value"
  | some _ => .error "invalid type for tag type"
  | none => .error "missing field type"

/-- The helper struct `PropertyValue {name, #[serde(flatten)] value}`. -/
def decodePropertyValue (v : Value) : Except String (String × Property) :=
  match v with
  | .obj fields =>
    match lookupField fields "name" with
    | some (.str name) =>
      match decodeProperty fields with
      | .ok p => .ok (name, p)
      | .error e => .error e
    | some _ => .error "invalid type for name"
    | none => .error "missing field name"
  | _ => .error "invalid type: expected property record"

/-- `PropertiesVisitor::visit_seq` (src/properties.rs:39-53): deserialize each
array element to a `(name, Property)` pair and insert it into the map; the
first failing element aborts. -/
def propsFromList (vs : List Value) : Except String Properties :=
  vs.foldlM
    (fun m v =>
      match decodePropertyValue v with
      | .ok p => .ok (insertProp m p.1 p.2)
      | .error e => .error e)
    ([] : Properties)

/-- `deserialize_properties` (src/properties.rs:55-64): a value that is not an
array, or an array with an element that fails to parse, yields `Ok(None)`
rather than an error. -/
def deserialize_properties (v : Value) : Option Properties :=
  match v with
  | .arr vs => (propsFromList vs).toOption
  | _ => none

/-- A `#[serde(default, deserialize_with = "deserialize_properties")]` field:
absent means `None`, present goes through the lenient decoder. -/
def decodeOptProperties (fields : List (String × Value)) : Option Properties :=
  match lookupField fields "properties" with
  | some v => deserialize_properties v
  | none => none

/-! ## Object shapes (`src/lib.rs:31-124`)

`ObjectShapeData` is `#[serde(untagged)]`: serde tries the variants in
declaration order, each variant matching when its required fields deserialize
from the record (unknown fields are ignored), and the custom
`ObjectShape::deserialize` falls back to `Unknown` when no variant matches. -/

structure PointData where
  x : JNum
  y : JNum
deriving DecidableEq, Repr

/-- serde `Point {x: f32, y: f32}` from a JSON value. -/
def decodePointData (v : Value) : Option PointData :=
  match v with
  | .obj fields =>
    match lookupField fields "x", lookupField fields "y" with
    | some (.num x), some (.num y) => some ⟨x, y⟩
    | _, _ => none
  | _ => none

/-- serde `Vec<Point>` from a JSON value. -/
def decodePointList (v : Value) : Option (List PointData) :=
  match v with
  | .arr elems => elems.mapM decodePointData
  | _ => none

structure TextData where
  text : String
  wrap : Bool
  font_family : Option String
  pixel_size : Option Nat
deriving DecidableEq, Repr

/-- serde `Option<String>` field: missing or null is `None`; a present value
of another type fails the record. -/
def optStrField (fields : List (String × Value)) (key : String) :
    Option (Option String) :=
  match lookupField fields key with
  | none => some none
  | some .null => some none
  | some (.str s) => some (some s)
  | some _ => none

/-- serde `Option<u32>` field. -/
def optU32Field (fields : List (String × Value)) (key : String) :
    Option (Option Nat) :=
  match lookupField fields key with
  | none => some none
  | some .null => some none
  | some (.num (.posInt n)) => if n ≤ 4294967295 then some (some n) else none
  | some _ => none

/-- serde `Text` record (src/lib.rs:37-47). -/
def decodeTextData (v : Value) : Option TextData :=
  match v with
  | .obj fields =>
    match lookupField fields "text", lookupField fields "wrap" with
    | some (.str t), some (.bool w) =>
      match optStrField fields "fontfamily", optU32Field fields "pixelsize" with
      | some ff, some ps => some ⟨t, w, ff, ps⟩
      | _, _ => none
    | _, _ => none
  | _ => none

inductive ObjectShapeData where
  | point (point : Bool)
  | ellipse (ellipse : Bool) (width height : JNum)
  | polyline (points : List PointData)
  | polygon (points : List PointData)
  | text (text : TextData) (width height : JNum)
  | rect (width height : JNum)
deriving DecidableEq, Repr

inductive ObjectShape where
  | point
  | rect (width height : JNum)
  | ellipse (width height : JNum)
  | polyline (points : List PointData)
  | polygon (points : List PointData)
  | text (text : TextData) (width height : JNum)
  | unknown
deriving DecidableEq, Repr

/-- `ObjectShape::from` (src/lib.rs:90-111). -/
def ObjectShape.fromData : ObjectShapeData → ObjectShape
  | .point _ => .point
  | .ellipse _ w h => .ellipse w h
  | .polyline pts => .polyline pts
  | .polygon pts => .polygon pts
  | .text t w h => .text t w h
  | .rect w h => .rect w h

/-- Untagged attempt at `ObjectShapeData::Point`: a `point` field holding a
boolean. -/
def tryPoint (fields : List (String × Value)) : Option ObjectShapeData :=
  match lookupField fields "point" with
  | some (.bool b) => some (.point b)
  | _ => none

/-- Untagged attempt at `ObjectShapeData::Ellipse`: an `ellipse` boolean plus
numeric `width` and `height`. -/
def tryEllipse (fields : List (String × Value)) : Option ObjectShapeData :=
  match lookupField fields "ellipse", lookupField fields "width",
      lookupField fields "height" with
  | some (.bool b), some (.num w), some (.num h) => some (.ellipse b w h)
  | _, _, _ => none

/-- Untagged attempt at `ObjectShapeData::Polyline`: a `polyline` array of
points. -/
def tryPolyline (fields : List (String × Value)) : Option ObjectShapeData :=
  match lookupField fields "polyline" with
  | some v => (decodePointList v).map .polyline
  | none => none

/-- Untagged attempt at `ObjectShapeData::Polygon`: a `polygon` array of
points. -/
def tryPolygon (fields : List (String × Value)) : Option ObjectShapeData :=
  match lookupField fields "polygon" with
  | some v => (decodePointList v).map .polygon
  | none => none

/-- Untagged attempt at `ObjectShapeData::Text`: a nested `text` record plus
numeric `width` and `height`. -/
def tryText (fields : List (String × Value)) : Option ObjectShapeData :=
  match lookupField fields "text", lookupField fields "width",
      lookupField fields "height" with
  | some tv, some (.num w), some (.num h) =>
    (decodeTextData tv).map (fun t => .text t w h)
  | _, _, _ => none

/-- Untagged attempt at `ObjectShapeData::Rect`: bare numeric `width` and
`height`. -/
def tryRect (fields : List (String × Value)) : Option ObjectShapeData :=
  match lookupField fields "width", lookupField fields "height" with
  | some (.num w), some (.num h) => some (.rect w h)
  | _, _ => none

/-- The `#[serde(untagged)]` deserialization of `ObjectShapeData`: variants
tried in declaration order. -/
def tryShapeData (fields : List (String × Value)) : Option ObjectShapeData :=
  match tryPoint fields with
  | some d => some d
  | none =>
    match tryEllipse fields with
    | some d => some d
    | none =>
      match tryPolyline fields with
      | some d => some d
      | none =>
        match tryPolygon fields with
        | some d => some d
        | none =>
          match tryText fields with
          | some d => some d
          | none => tryRect fields

/-- The body of `ObjectShape::deserialize` (src/lib.rs:113-124): a successful
`ObjectShapeData` attempt is converted, anything else is `Unknown`. -/
def shapeFromValue (v : Value) : ObjectShape :=
  match v with
  | .obj fields =>
    match tryShapeData fields with
    | some d => ObjectShape.fromData d
    | none => .unknown
  | _ => .unknown

/-- `ObjectShape::deserialize` always returns `Ok`. -/
def ObjectShape.deserialize (v : Value) : Except String ObjectShape :=
  .ok (shapeFromValue v)

/-! ## Objects, layers and maps (`src/lib.rs`, `src/tileset.rs`) -/

structure Object where
  id : Nat
  name : String
  type : String
  x : JNum
  y : JNum
  rotation : JNum
  visible : Bool
  shape : ObjectShape
  properties : Option Properties

/-- serde `Object` (src/lib.rs:126-145): plain fields, the flattened shape
(which never fails), and the lenient properties field. -/
def decodeObject (v : Value) : Except String Object :=
  match v with
  | .obj fields => do
    let id ← fieldU32 fields "id"
    let name ← fieldStr fields "name"
    let ty ← fieldStr fields "type"
    let x ← fieldNum fields "x"
    let y ← fieldNum fields "y"
    let rotation ← fieldNum fields "rotation"
    let visible ← fieldBool fields "visible"
    .ok ⟨id, name, ty, x, y, rotation, visible, shapeFromValue v,
      decodeOptProperties fields⟩
  | _ => .error "invalid type: expected object record"

structure ObjectGroup where
  objects : List Object
  color : Option Color

/-- serde `ObjectGroup` (src/lib.rs:147-151). -/
def decodeObjectGroup (v : Value) : Except String ObjectGroup :=
  match v with
  | .obj fields => do
    let objects ← match lookupField fields "objects" with
      | some (.arr elems) => elems.mapM decodeObject
      | some _ => .error "invalid type for objects"
      | none => .error "missing field objects"
    let color ← fieldOptColor fields "color"
    .ok ⟨objects, color⟩
  | _ => .error "invalid type: expected object group"

structure ImageLayer where
  offset_x : JNum
  offset_y : JNum
  transparent_color : Option Color
  image : String

/-- serde `ImageLayer` (src/lib.rs:153-163). -/
def decodeImageLayer (v : Value) : Except String ImageLayer :=
  match v with
  | .obj fields => do
    let ox ← fieldNum fields "offsetx"
    let oy ← fieldNum fields "offsety"
    let tc ← fieldOptColor fields "transparentcolor"
    let image ← fieldStr fields "image"
    .ok ⟨ox, oy, tc, image⟩
  | _ => .error "invalid type: expected image layer"

/-- serde `Option<Compression>` field (lowercase variant names). -/
def fieldOptCompression (fields : List (String × Value)) :
    Except String (Option Compression) :=
  match lookupField fields "compression" with
  | none => .ok none
  | some .null => .ok none
  | some (.str s) =>
    if s = "zlib" then .ok (some .zlib)
    else if s = "gzip" then .ok (some .gzip)
    else .error ("unknown variant " ++ s)
  | some _ => .error "invalid type for compression"

/-- serde `Option<Encoding>` field (lowercase variant names). -/
def fieldOptEncoding (fields : List (String × Value)) :
    Except String (Option Encoding) :=
  match lookupField fields "encoding" with
  | none => .ok none
  | some .null => .ok none
  | some (.str s) =>
    if s = "csv" then .ok (some .csv)
    else if s = "base64" then .ok (some .base64)
    else .error ("unknown variant " ++ s)
  | some _ => .error "invalid type for encoding"

/-- serde `TileLayerData` (src/lib.rs:165-176). -/
def decodeTileLayerData (v : Value) : Except String TileLayerData :=
  match v with
  | .obj fields => do
    let w ← fieldU32 fields "width"
    let h ← fieldU32 fields "height"
    let data ← match lookupField fields "data" with
      | some d => .ok d
      | none => .error "missing field data"
    let comp ← fieldOptCompression fields
    let enc ← fieldOptEncoding fields
    .ok ⟨w, h, data, comp, enc⟩
  | _ => .error "invalid type: expected tile layer"

/-- `TileLayer::deserialize` (src/lib.rs:211-220): decode the intermediate
record, then run `TileLayer::from`; its `TiledError` is turned into a serde
error with `Error::custom` (carrying the display message). -/
def TileLayer.deserialize (v : Value) : Except String TileLayer :=
  match decodeTileLayerData v with
  | .ok d =>
    match TileLayer.fromData d with
    | .ok l => .ok l
    | .error e => .error e.message
  | .error e => .error e

inductive LayerType where
  | tileLayer (l : TileLayer)
  | imageLayer (l : ImageLayer)
  | objectGroup (g : ObjectGroup)

/-- The `#[serde(rename_all = "lowercase", tag = "type")]` deserialization of
`LayerType` (src/lib.rs:222-228): the string tag selects the variant, whose
content is deserialized from the same record; an unrecognized or missing tag
is a serde error. -/
def decodeLayerType (fields : List (String × Value)) : Except String LayerType :=
  match lookupField fields "type" with
  | some (.str tag) =>
    if tag = "tilelayer" then (TileLayer.deserialize (.obj fields)).map .tileLayer
    else if tag = "imagelayer" then (decodeImageLayer (.obj fields)).map .imageLayer
    else if tag = "objectgroup" then (decodeObjectGroup (.obj fields)).map .objectGroup
    else .error ("unknown variant " ++ tag)
  | some _ => .error "invalid type for tag type"
  | none => .error "missing field type"

structure Layer where
  name : String
  opacity : JNum
  visible : Bool
  data : LayerType
  properties : Option Properties

/-- serde `Layer` (src/lib.rs:230-246). -/
def decodeLayer (v : Value) : Except String Layer :=
  match v with
  | .obj fields => do
    let name ← fieldStr fields "name"
    let opacity ← fieldNum fields "opacity"
    let visible ← fieldBool fields "visible"
    let data ← decodeLayerType fields
    .ok ⟨name, opacity, visible, data, decodeOptProperties fields⟩
  | _ => .error "invalid type: expected layer record"

structure Tile where
  id : Nat

structure Tileset where
  first_gid : Nat
  name : String
  tile_width : Nat
  tile_height : Nat
  spacing : Nat
  margin : Nat
  image : String
  tiles : Option (List Tile)

/-- serde `Tile` (src/tileset.rs:9-13). -/
def decodeTileRecord (v : Value) : Except String Tile :=
  match v with
  | .obj fields => (fieldU32 fields "id").map Tile.mk
  | _ => .error "invalid type: expected tile record"

/-- serde `Tileset` (src/tileset.rs:16-38). -/
def decodeTileset (v : Value) : Except String Tileset :=
  match v with
  | .obj fields => do
    let fg ← fieldU32 fields "firstgid"
    let name ← fieldStr fields "name"
    let tw ← fieldU32 fields "tilewidth"
    let th ← fieldU32 fields "tileheight"
    let spacing ← fieldU32 fields "spacing"
    let margin ← fieldU32 fields "margin"
    let image ← fieldStr fields "image"
    let tiles ← match lookupField fields "tiles" with
      | none => .ok none
      | some .null => .ok none
      | some (.arr elems) => (elems.mapM decodeTileRecord).map some
      | some _ => .error "invalid type for tiles"
    .ok ⟨fg, name, tw, th, spacing, margin, image, tiles⟩
  | _ => .error "invalid type: expected tileset"

inductive Orientation where
  | orthogonal
  | isometric
  | staggered
  | hexagonal
deriving DecidableEq, Repr

/-- serde `Orientation` (src/lib.rs:21-29), lowercase variant names. -/
def decodeOrientation (v : Value) : Except String Orientation :=
  match v with
  | .str s =>
    if s = "orthogonal" then .ok .orthogonal
    else if s = "isometric" then .ok .isometric
    else if s = "staggered" then .ok .staggered
    else if s = "hexagonal" then .ok .hexagonal
    else .error ("unknown variant " ++ s)
  | _ => .error "invalid type: expected string"

/-- Rendering of a JSON number as a string; the float payload is not carried
by the model, and no claim depends on its rendering. -/
def jnumToString : JNum → String
  | .posInt n => toString n
  | .negInt n => toString n
  | .float => "<float>"

/-- `deserialize_version` (src/utils.rs:120-126): a JSON number rendered as a
string; any non-number is a serde error. -/
def deserialize_version (v : Value) : Except String String :=
  match v with
  | .num n => .ok (jnumToString n)
  | _ => .error "invalid type: expected number"

structure Map where
  version : String
  orientation : Orientation
  width : Nat
  height : Nat
  tile_width : Nat
  tile_height : Nat
  tilesets : List Tileset
  layers : List Layer
  background_colour : Option Color
  properties : Option Properties

/-- serde `Map` (src/lib.rs:248-271). -/
def decodeMap (v : Value) : Except String Map :=
  match v with
  | .obj fields => do
    let version ← match lookupField fields "version" with
      | some vv => deserialize_version vv
      | none => .error "missing field version"
    let orientation ← match lookupField fields "orientation" with
      | some ov => decodeOrientation ov
      | none => .error "missing field orientation"
    let w ← fieldU32 fields "width"
    let h ← fieldU32 fields "height"
    let tw ← fieldU32 fields "tilewidth"
    let th ← fieldU32 fields "tileheight"
    let tilesets ← match lookupField fields "tilesets" with
      | some (.arr elems) => elems.mapM decodeTileset
      | some _ => .error "invalid type for tilesets"
      | none => .error "missing field tilesets"
    let layers ← match lookupField fields "layers" with
      | some (.arr elems) => elems.mapM decodeLayer
      | some _ => .error "invalid type for layers"
      | none => .error "missing field layers"
    let bg ← fieldOptColor fields "backgroundcolor"
    .ok ⟨version, orientation, w, h, tw, th, tilesets, layers, bg,
      decodeOptProperties fields⟩
  | _ => .error "invalid type: expected map"

/-- `parse` (src/lib.rs:274-276): the whole-tree decode, with every serde
error wrapped as `TiledError::ParsingError`. -/
def parse (v : Value) : Except TiledError Map :=
  (decodeMap v).mapError TiledError.parsingError

/-! ## Lemmas about the u32-chunking loop -/

theorem chunksToTiles_error_of_len :
    ∀ bs : List Nat, bs.length % 4 ≠ 0 →
      chunksToTiles bs = .error (.other "TryFromSliceError(())")
  | [], h => absurd rfl h
  | [_], _ => rfl
  | [_, _], _ => rfl
  | [_, _, _], _ => rfl
  | _ :: _ :: _ :: _ :: rest, h => by
    have hr : rest.length % 4 ≠ 0 := by
      simp only [List.length_cons] at h
      omega
    simp only [chunksToTiles, chunksToTiles_error_of_len rest hr]

theorem chunksToTiles_tilesToLEBytes :
    ∀ ids : List Nat, (∀ i ∈ ids, i < 4294967296) →
      chunksToTiles (tilesToLEBytes ids) = .ok ids
  | [], _ => rfl
  | id :: rest, h => by
    have hid : id < 4294967296 := h id (by simp)
    have hrest := chunksToTiles_tilesToLEBytes rest (fun i hi => h i (by simp [hi]))
    simp only [tilesToLEBytes, chunksToTiles, hrest]
    have : id % 256 + 256 * (id / 256 % 256) + 65536 * (id / 65536 % 256) +
        16777216 * (id / 16777216 % 256) = id := by omega
    rw [this]

theorem tilesToLEBytes_lt_256 :
    ∀ ids : List Nat, ∀ x ∈ tilesToLEBytes ids, x < 256
  | id :: rest, x, hx => by
    simp only [tilesToLEBytes, List.mem_cons] at hx
    rcases hx with h | h | h | h | h
    · omega
    · omega
    · omega
    · omega
    · exact tilesToLEBytes_lt_256 rest x h

/-! ## Claim theorems: the CSV path, partial chunks, length leniency,
unchecked indexing -/

/-- C2: a call to the tile-data codec with encoding `Csv` or with encoding
absent fails with a hard format error when the data value is not a JSON
array; on an array it appends every element interpretable as a non-negative
integer (as u32, mod 2^32) in order and silently skips every other
element. -/
theorem csv_tiledata_spec (data : Value) (w h : Nat) (enc : Option Encoding)
    (comp : Option Compression) (henc : enc = some .csv ∨ enc = none) :
    decode_tiledata data w h enc comp =
      match data with
      | .arr elems => .ok (elems.filterMap (fun v => (Value.asU64 v).map (· % 4294967296)))
      | _ => .error (.other "Improperly formatted data") := by
  rcases henc with h' | h' <;> subst h' <;> cases data <;> rfl

theorem csv_tiledata_spec_witness :
    decode_tiledata
        (.arr [.num (.posInt 7), .str "x", .num (.negInt (-3)), .num (.posInt 5)])
        2 2 (some .csv) none = .ok [7, 5] := by
  have h := csv_tiledata_spec
    (.arr [.num (.posInt 7), .str "x", .num (.negInt (-3)), .num (.posInt 5)])
    2 2 (some .csv) none (Or.inl rfl)
  simpa using h

/-- C3: when the byte buffer produced by base64 decoding and optional
decompression has a length that is not a multiple of 4, the codec fails with
the `TiledError::Other` format error wrapping `TryFromSliceError`. -/
theorem base64_partial_chunk_fails (s : String) (comp : Option Compression)
    (buf : List Nat) (hbuf : b64Buffer s comp = .ok buf)
    (hlen : buf.length % 4 ≠ 0) :
    decode_base64_tiledata (.str s) comp = .error (.other "TryFromSliceError(())") := by
  simp only [decode_base64_tiledata, Value.asStr, hbuf]
  exact chunksToTiles_error_of_len buf hlen

theorem base64_partial_chunk_fails_witness :
    decode_base64_tiledata (.str "AAAAAAA=") none = .error (.other "TryFromSliceError(())") :=
  base64_partial_chunk_fails "AAAAAAA=" none [0, 0, 0, 0, 0] rfl (by decide)

/-- C9: `width` and `height` are only a capacity hint — the decoded result
does not depend on them at all, and a successfully decoded tile array passes
through whether it is undersized (3 tiles for a 2x2 layer) or oversized
(5 tiles for a 2x2 layer). -/
theorem codec_length_leniency :
    (∀ (data : Value) (w h w' h' : Nat) (enc : Option Encoding)
        (comp : Option Compression),
        decode_tiledata data w h enc comp = decode_tiledata data w' h' enc comp)
  ∧ decode_tiledata (.arr [.num (.posInt 1), .num (.posInt 2), .num (.posInt 3)])
      2 2 none none = .ok [1, 2, 3]
  ∧ decode_tiledata (.arr [.num (.posInt 1), .num (.posInt 2), .num (.posInt 3),
      .num (.posInt 4), .num (.posInt 5)]) 2 2 none none = .ok [1, 2, 3, 4, 5] := by
  refine ⟨fun data w h w' h' enc comp => ?_, rfl, rfl⟩
  rfl

/-- C10: `TileLayer::get_tile(x, y)` indexes `tiles[x + y*width]` unchecked:
it returns the tile whenever the (wrapping) index is in bounds, and since the
codec does not enforce `tiles.len() = width*height`, a layer decoded from a
3-element array with width 2 and height 2 panics (models as `none`) at
`x = 1 < width`, `y = 1 < height`. -/
theorem get_tile_unchecked_indexing :
    (∀ (l : TileLayer) (x y : Nat) (h : (x + y * l.width) % 4294967296 < l.tiles.length),
        l.get_tile x y = some (l.tiles.get ⟨(x + y * l.width) % 4294967296, h⟩))
  ∧ TileLayer.fromData ⟨2, 2, .arr [.num (.posInt 1), .num (.posInt 2), .num (.posInt 3)],
        none, none⟩ = .ok ⟨2, 2, [1, 2, 3]⟩
  ∧ 1 < 2 ∧ (TileLayer.mk 2 2 [1, 2, 3]).get_tile 1 1 = none := by
  refine ⟨fun l x y h => ?_, rfl, by omega, rfl⟩
  simp [TileLayer.get_tile, List.get?_eq_get h]

/-! ## Lemmas about hex parsing and the color decoder -/

/-- The characters `u8::from_str_radix(_, 16)` treats as digits. -/
def isHexDigitChar (c : Char) : Bool :=
  (48 ≤ c.toNat && c.toNat ≤ 57) || (97 ≤ c.toNat && c.toNat ≤ 102) ||
    (65 ≤ c.toNat && c.toNat ≤ 70)

/-- The byte value of a 2-hex-digit group. -/
def hexPairVal (c1 c2 : Char) : Nat :=
  16 * (hexDigitVal c1).getD 0 + (hexDigitVal c2).getD 0

theorem isHex_facts (c : Char) (h : isHexDigitChar c = true) :
    hexDigitVal c = some ((hexDigitVal c).getD 0) ∧ (hexDigitVal c).getD 0 ≤ 15 ∧
      48 ≤ c.toNat := by
  simp only [isHexDigitChar, Bool.or_eq_true, Bool.and_eq_true, decide_eq_true_eq,
    or_assoc] at h
  unfold hexDigitVal
  rcases h with ⟨h1, h2⟩ | ⟨h1, h2⟩ | ⟨h1, h2⟩
  · rw [if_pos ⟨h1, h2⟩]
    refine ⟨rfl, ?_, h1⟩
    simp only [Option.getD_some]
    omega
  · rw [if_neg (by omega : ¬(48 ≤ c.toNat ∧ c.toNat ≤ 57)), if_pos ⟨h1, h2⟩]
    refine ⟨rfl, ?_, by omega⟩
    simp only [Option.getD_some]
    omega
  · rw [if_neg (by omega : ¬(48 ≤ c.toNat ∧ c.toNat ≤ 57)),
      if_neg (by omega : ¬(97 ≤ c.toNat ∧ c.toNat ≤ 102)), if_pos ⟨h1, h2⟩]
    refine ⟨rfl, ?_, by omega⟩
    simp only [Option.getD_some]
    omega

theorem isHex_ne_plus (c : Char) (h : isHexDigitChar c = true) : c ≠ '+' := by
  intro he
  have h48 := (isHex_facts c h).2.2
  rw [he] at h48
  have : ('+' : Char).toNat = 43 := rfl
  omega

theorem isHex_ne_hash (c : Char) (h : isHexDigitChar c = true) : c ≠ '#' := by
  intro he
  have h48 := (isHex_facts c h).2.2
  rw [he] at h48
  have : ('#' : Char).toNat = 35 := rfl
  omega

theorem radix16Step_some (v : Nat) (c : Char) (d : Nat) (hd : hexDigitVal c = some d)
    (hle : 16 * v + d ≤ 255) : radix16Step (some v) c = some (16 * v + d) := by
  unfold radix16Step
  rw [hd]
  exact if_pos hle

theorem fromStrRadix16U8_hex (c1 c2 : Char) (h1 : isHexDigitChar c1 = true)
    (h2 : isHexDigitChar c2 = true) :
    fromStrRadix16U8 [c1, c2] = some (hexPairVal c1 c2) := by
  obtain ⟨hv1, hb1, -⟩ := isHex_facts c1 h1
  obtain ⟨hv2, hb2, -⟩ := isHex_facts c2 h2
  have hne : ¬([c1, c2].head? = some '+') := by
    simp only [List.head?, Option.some.injEq]
    exact isHex_ne_plus c1 h1
  unfold fromStrRadix16U8
  rw [if_neg hne, if_neg (by simp : ¬([c1, c2] : List Char).isEmpty = true)]
  simp only [List.foldl]
  rw [radix16Step_some 0 c1 _ hv1 (by omega),
    radix16Step_some _ c2 _ hv2 (by omega)]
  exact congrArg some (by unfold hexPairVal; omega)

/-- C4: a valid 6-hex-digit color string (with or without a leading `#`)
decodes to `(R,G,B,255)`, and a valid 8-hex-digit string is read as ARGB and
reordered to `(R,G,B,A)` with the leading alpha group moved to the last
position. -/
theorem color_hex_decoding (c0 c1 c2 c3 c4 c5 c6 c7 : Char)
    (h0 : isHexDigitChar c0 = true) (h1 : isHexDigitChar c1 = true)
    (h2 : isHexDigitChar c2 = true) (h3 : isHexDigitChar c3 = true)
    (h4 : isHexDigitChar c4 = true) (h5 : isHexDigitChar c5 = true)
    (h6 : isHexDigitChar c6 = true) (h7 : isHexDigitChar c7 = true) :
    (Color.fromStr ['#', c0, c1, c2, c3, c4, c5] =
        .ok ⟨hexPairVal c0 c1, hexPairVal c2 c3, hexPairVal c4 c5, 255⟩
      ∧ Color.fromStr [c0, c1, c2, c3, c4, c5] =
        .ok ⟨hexPairVal c0 c1, hexPairVal c2 c3, hexPairVal c4 c5, 255⟩)
  ∧ (Color.fromStr ['#', c0, c1, c2, c3, c4, c5, c6, c7] =
        .ok ⟨hexPairVal c2 c3, hexPairVal c4 c5, hexPairVal c6 c7, hexPairVal c0 c1⟩
      ∧ Color.fromStr [c0, c1, c2, c3, c4, c5, c6, c7] =
        .ok ⟨hexPairVal c2 c3, hexPairVal c4 c5, hexPairVal c6 c7, hexPairVal c0 c1⟩) := by
  have e01 := fromStrRadix16U8_hex c0 c1 h0 h1
  have e23 := fromStrRadix16U8_hex c2 c3 h2 h3
  have e45 := fromStrRadix16U8_hex c4 c5 h4 h5
  have e67 := fromStrRadix16U8_hex c6 c7 h6 h7
  have hc0 : ¬(c0 = '#') := isHex_ne_hash c0 h0
  refine ⟨⟨?_, ?_⟩, ?_, ?_⟩ <;>
    simp [Color.fromStr, stripHash, parsePairs, e01, e23, e45, e67, hc0, List.getD]

theorem color_hex_decoding_witness :
    (Color.fromStr ['#', '1', 'a', '2', 'B', '3', 'c'] =
        .ok ⟨hexPairVal '1' 'a', hexPairVal '2' 'B', hexPairVal '3' 'c', 255⟩
      ∧ Color.fromStr ['1', 'a', '2', 'B', '3', 'c'] =
        .ok ⟨hexPairVal '1' 'a', hexPairVal '2' 'B', hexPairVal '3' 'c', 255⟩)
  ∧ (Color.fromStr ['#', '1', 'a', '2', 'B', '3', 'c', '4', 'd'] =
        .ok ⟨hexPairVal '2' 'B', hexPairVal '3' 'c', hexPairVal '4' 'd', hexPairVal '1' 'a'⟩
      ∧ Color.fromStr ['1', 'a', '2', 'B', '3', 'c', '4', 'd'] =
        .ok ⟨hexPairVal '2' 'B', hexPairVal '3' 'c', hexPairVal '4' 'd', hexPairVal '1' 'a'⟩) :=
  color_hex_decoding '1' 'a' '2' 'B' '3' 'c' '4' 'd' (by decide) (by decide) (by decide)
    (by decide) (by decide) (by decide) (by decide) (by decide)

/-- C5 is refuted as stated: `u8::from_str_radix` accepts a leading `+` sign
inside a 2-character group, so the string `"#+1+2+3"` contains non-hex
characters yet parses successfully to the color (1,2,3,255). -/
theorem color_nonhex_counterexample :
    Color.fromStr ['#', '+', '1', '+', '2', '+', '3'] = .ok ⟨1, 2, 3, 255⟩ ∧
      isHexDigitChar '+' = false :=
  ⟨rfl, rfl⟩

theorem parsePairs_error_of_group (msg : List Char) :
    ∀ (i : Nat) (r : List Char), 2 * i + 2 ≤ r.length →
      fromStrRadix16U8 ((r.drop (2 * i)).take 2) = none →
      parsePairs msg r = .error (.other ("Invalid color value " ++ String.mk msg))
  | _, [], hlen, _ => by simp at hlen
  | _, [_], hlen, _ => by simp at hlen
  | 0, c1 :: c2 :: rest, _, hg => by
    have ht : ((c1 :: c2 :: rest).drop (2 * 0)).take 2 = [c1, c2] := rfl
    rw [ht] at hg
    simp only [parsePairs, hg]
  | i + 1, c1 :: c2 :: rest, hlen, hg => by
    have hlen' : 2 * i + 2 ≤ rest.length := by
      simp only [List.length_cons] at hlen
      omega
    have heq : (c1 :: c2 :: rest).drop (2 * (i + 1)) = rest.drop (2 * i) := by
      rw [show 2 * (i + 1) = 2 * i + 1 + 1 from by omega, List.drop_succ_cons,
        List.drop_succ_cons]
    rw [heq] at hg
    cases hfsr : fromStrRadix16U8 [c1, c2] with
    | none => simp only [parsePairs, hfsr]
    | some v =>
      simp only [parsePairs, hfsr, parsePairs_error_of_group msg i rest hlen' hg]

/-- C5 (amended): color parsing fails with a `TiledError::Other` format error
naming the offending string whenever the length after stripping an optional
leading `#` is neither 6 nor 8, or some 2-character group is rejected by
`u8::from_str_radix` (any non-hex character other than a leading `+` accepted
by `from_str_radix`); a `+` starting a group does not make parsing fail. -/
theorem color_failure_spec (s : List Char)
    (h : ((stripHash s).length ≠ 6 ∧ (stripHash s).length ≠ 8) ∨
      ∃ i, 2 * i + 2 ≤ (stripHash s).length ∧
        fromStrRadix16U8 (((stripHash s).drop (2 * i)).take 2) = none) :
    Color.fromStr s = .error (.other ("Invalid color value " ++ String.mk (stripHash s))) := by
  rcases Decidable.em ((stripHash s).length ≠ 6 ∧ (stripHash s).length ≠ 8) with hlen | hlen
  · simp only [Color.fromStr, if_pos hlen]
  · rcases h with h | ⟨i, hi, hg⟩
    · exact absurd h hlen
    · simp only [Color.fromStr, if_neg hlen,
        parsePairs_error_of_group (stripHash s) i (stripHash s) hi hg]

theorem color_failure_spec_witness :
    Color.fromStr ['1', '2'] =
      .error (.other ("Invalid color value " ++ String.mk (stripHash ['1', '2']))) :=
  color_failure_spec ['1', '2'] (Or.inl (by decide))

/-! ## Lemmas about base64 and trimming -/

theorem b64Char_spec : ∀ s : Nat, s < 64 →
    b64CharVal (b64Char s) = some s ∧ b64Char s ≠ '=' ∧ isRustWs (b64Char s) = false := by
  decide

theorem b64decode_encode : ∀ bs : List Nat, (∀ x ∈ bs, x < 256) →
    b64decodeChars (b64encodeBytes bs) = .ok bs
  | [], _ => rfl
  | [a], h => by
    have ha : a < 256 := h a (by simp)
    obtain ⟨d0, -, -⟩ := b64Char_spec (a / 4) (by omega)
    obtain ⟨d1, -, -⟩ := b64Char_spec (a % 4 * 16) (by omega)
    have hm : a % 4 * 16 % 16 = 0 := by omega
    simp [b64encodeBytes, b64decodeChars, d0, d1, hm]
    omega
  | [a, b], h => by
    have ha : a < 256 := h a (by simp)
    have hb : b < 256 := h b (by simp)
    obtain ⟨d0, -, -⟩ := b64Char_spec (a / 4) (by omega)
    obtain ⟨d1, -, -⟩ := b64Char_spec (a % 4 * 16 + b / 16) (by omega)
    obtain ⟨d2, ne2, -⟩ := b64Char_spec (b % 16 * 4) (by omega)
    have hm : b % 16 * 4 % 4 = 0 := by omega
    simp [b64encodeBytes, b64decodeChars, d0, d1, d2, ne2, hm]
    omega
  | a :: b :: c :: rest, h => by
    have ha : a < 256 := h a (by simp)
    have hb : b < 256 := h b (by simp)
    have hc : c < 256 := h c (by simp)
    obtain ⟨d0, -, -⟩ := b64Char_spec (a / 4) (by omega)
    obtain ⟨d1, -, -⟩ := b64Char_spec (a % 4 * 16 + b / 16) (by omega)
    obtain ⟨d2, ne2, -⟩ := b64Char_spec (b % 16 * 4 + c / 64) (by omega)
    obtain ⟨d3, ne3, -⟩ := b64Char_spec (c % 64) (by omega)
    have hih := b64decode_encode rest (fun x hx => h x (by simp [hx]))
    simp [b64encodeBytes, b64decodeChars, d0, d1, d2, d3, ne2, ne3, hih]
    omega

theorem dropWhile_all_false (p : Char → Bool) :
    ∀ l : List Char, (∀ c ∈ l, p c = false) → l.dropWhile p = l
  | [], _ => rfl
  | c :: l, h => by
    have hc : p c = false := h c (by simp)
    simp [List.dropWhile_cons, hc]

theorem trimChars_eq_self (l : List Char) (h : ∀ c ∈ l, isRustWs c = false) :
    trimChars l = l := by
  unfold trimChars
  rw [dropWhile_all_false _ l h,
    dropWhile_all_false _ l.reverse (fun c hc => h c (List.mem_reverse.mp hc)),
    List.reverse_reverse]

theorem b64encode_no_ws : ∀ bs : List Nat, (∀ x ∈ bs, x < 256) →
    ∀ ch ∈ b64encodeBytes bs, isRustWs ch = false
  | [], _, ch, hch => by simp [b64encodeBytes] at hch
  | [a], h, ch, hch => by
    have ha : a < 256 := h a (by simp)
    obtain ⟨-, -, w0⟩ := b64Char_spec (a / 4) (by omega)
    obtain ⟨-, -, w1⟩ := b64Char_spec (a % 4 * 16) (by omega)
    simp only [b64encodeBytes, List.mem_cons, List.not_mem_nil, or_false] at hch
    rcases hch with rfl | rfl | rfl | rfl
    · exact w0
    · exact w1
    · rfl
    · rfl
  | [a, b], h, ch, hch => by
    have ha : a < 256 := h a (by simp)
    have hb : b < 256 := h b (by simp)
    obtain ⟨-, -, w0⟩ := b64Char_spec (a / 4) (by omega)
    obtain ⟨-, -, w1⟩ := b64Char_spec (a % 4 * 16 + b / 16) (by omega)
    obtain ⟨-, -, w2⟩ := b64Char_spec (b % 16 * 4) (by omega)
    simp only [b64encodeBytes, List.mem_cons, List.not_mem_nil, or_false] at hch
    rcases hch with rfl | rfl | rfl | rfl
    · exact w0
    · exact w1
    · exact w2
    · rfl
  | a :: b :: c :: rest, h, ch, hch => by
    have ha : a < 256 := h a (by simp)
    have hb : b < 256 := h b (by simp)
    have hc : c < 256 := h c (by simp)
    obtain ⟨-, -, w0⟩ := b64Char_spec (a / 4) (by omega)
    obtain ⟨-, -, w1⟩ := b64Char_spec (a % 4 * 16 + b / 16) (by omega)
    obtain ⟨-, -, w2⟩ := b64Char_spec (b % 16 * 4 + c / 64) (by omega)
    obtain ⟨-, -, w3⟩ := b64Char_spec (c % 64) (by omega)
    simp only [b64encodeBytes, List.mem_cons] at hch
    rcases hch with rfl | rfl | rfl | rfl | hch
    · exact w0
    · exact w1
    · exact w2
    · exact w3
    · exact b64encode_no_ws rest (fun x hx => h x (by simp [hx])) ch hch

/-! ## Lemmas about the zlib model -/

theorem parseBlocksF_storedFinal (pf : Nat) (b t : List Nat) :
    parseBlocksF (pf + 1) (storedBlockFinal b ++ t) = .ok (b, t) := by
  have hlen : b.length % 256 + 256 * (b.length / 256) = b.length := by omega
  have hnlen : (65535 - b.length) % 256 + 256 * ((65535 - b.length) / 256) =
      65535 - b.length := by omega
  have hle : b.length ≤ (b ++ t).length := by
    rw [List.length_append]; omega
  simp [storedBlockFinal, List.cons_append, parseBlocksF, hlen, hnlen, hle,
    List.take_left, List.drop_left]

theorem parseBlocksF_deflate : ∀ (f pf : Nat) (b t : List Nat), f + 1 ≤ pf →
    parseBlocksF pf (deflateStoredF f b ++ t) = .ok (b, t)
  | 0, pf, b, t, hpf => by
    obtain ⟨pf', rfl⟩ : ∃ pf', pf = pf' + 1 := ⟨pf - 1, by omega⟩
    simp only [deflateStoredF]
    exact parseBlocksF_storedFinal pf' b t
  | f + 1, pf, b, t, hpf => by
    obtain ⟨pf', rfl⟩ : ∃ pf', pf = pf' + 1 := ⟨pf - 1, by omega⟩
    by_cases hcase : b.length ≤ 65535
    · simp only [deflateStoredF, if_pos hcase]
      exact parseBlocksF_storedFinal pf' b t
    · have htake : (b.take 65535).length = 65535 := by
        rw [List.length_take]; omega
      have hih := parseBlocksF_deflate f pf' (b.drop 65535) t (by omega)
      have hdrop : (b.take 65535 ++ (deflateStoredF f (b.drop 65535) ++ t)).drop 65535 =
          deflateStoredF f (b.drop 65535) ++ t := List.drop_left' htake
      have htk : (b.take 65535 ++ (deflateStoredF f (b.drop 65535) ++ t)).take 65535 =
          b.take 65535 := List.take_left' htake
      have hlen65 : 65535 ≤ (b.take 65535 ++ (deflateStoredF f (b.drop 65535) ++ t)).length := by
        rw [List.length_append, htake]; omega
      simp only [deflateStoredF, if_neg hcase, List.cons_append, List.append_assoc,
        parseBlocksF]
      simp [hdrop, hih, htk, hlen65, List.take_append_drop]
      omega

theorem le_length_deflateStoredF :
    ∀ (f : Nat) (b : List Nat), b.length ≤ (deflateStoredF f b).length
  | 0, b => by
    simp [deflateStoredF, storedBlockFinal]
    omega
  | f + 1, b => by
    by_cases hcase : b.length ≤ 65535
    · simp [deflateStoredF, if_pos hcase, storedBlockFinal]
      omega
    · have hih := le_length_deflateStoredF f (b.drop 65535)
      simp only [deflateStoredF, if_neg hcase, List.length_cons, List.length_append,
        List.length_take, List.length_drop] at *
      omega

theorem decode_zlib_zlibCompress (b : List Nat) : decode_zlib (zlibCompress b) = .ok b := by
  have hfuel : b.length + 1 ≤ (deflateStoredF b.length b ++ adlerBytesBE b).length + 1 := by
    have := le_length_deflateStoredF b.length b
    rw [List.length_append]
    omega
  unfold zlibCompress
  simp only [decode_zlib]
  rw [if_pos ⟨trivial, trivial⟩]
  rw [parseBlocksF_deflate b.length _ b (adlerBytesBE b) hfuel]
  simp

theorem storedBlockFinal_lt_256 (b : List Nat) (hb : ∀ x ∈ b, x < 256)
    (hlen : b.length ≤ 65535) : ∀ x ∈ storedBlockFinal b, x < 256 := by
  intro x hx
  simp only [storedBlockFinal, List.mem_cons] at hx
  rcases hx with rfl | rfl | rfl | rfl | rfl | hx
  · omega
  · omega
  · omega
  · omega
  · omega
  · exact hb x hx

theorem deflateStoredF_lt_256 : ∀ (f : Nat) (b : List Nat), (∀ x ∈ b, x < 256) →
    b.length ≤ 65535 * f + 65535 → ∀ x ∈ deflateStoredF f b, x < 256
  | 0, b, hb, hlen, x, hx => by
    exact storedBlockFinal_lt_256 b hb (by omega) x (by simpa [deflateStoredF] using hx)
  | f + 1, b, hb, hlen, x, hx => by
    by_cases hcase : b.length ≤ 65535
    · simp only [deflateStoredF, if_pos hcase] at hx
      exact storedBlockFinal_lt_256 b hb hcase x hx
    · simp only [deflateStoredF, if_neg hcase, List.mem_cons, List.mem_append] at hx
      rcases hx with rfl | rfl | rfl | rfl | rfl | hx | hx
      · omega
      · omega
      · omega
      · omega
      · omega
      · exact hb x (List.take_subset _ _ hx)
      · exact deflateStoredF_lt_256 f (b.drop 65535)
          (fun y hy => hb y (List.drop_subset _ _ hy))
          (by simp only [List.length_drop]; omega) x hx

theorem zlibCompress_lt_256 (b : List Nat) (hb : ∀ x ∈ b, x < 256) :
    ∀ x ∈ zlibCompress b, x < 256 := by
  intro x hx
  simp only [zlibCompress, adlerBytesBE, List.mem_cons, List.mem_append] at hx
  rcases hx with rfl | rfl | hx | rfl | rfl | rfl | rfl | hx
  · omega
  · omega
  · exact deflateStoredF_lt_256 b.length b hb (by omega) x hx
  · omega
  · omega
  · omega
  · omega
  · simp at hx

/-! ## Claim theorem: the base64+zlib round trip -/

/-- C1: for every sequence of 32-bit tile IDs, serializing each ID as 4
little-endian bytes, zlib-compressing the buffer, base64-encoding it into a
JSON string and decoding that string through the codec with encoding `Base64`
and compression `Zlib` yields exactly the original tile-ID sequence. -/
theorem base64_zlib_roundtrip (ids : List Nat) (w h : Nat)
    (hids : ∀ i ∈ ids, i < 4294967296) :
    decode_tiledata (.str ⟨b64encodeBytes (zlibCompress (tilesToLEBytes ids))⟩) w h
      (some .base64) (some .zlib) = .ok ids := by
  have hbytes : ∀ x ∈ zlibCompress (tilesToLEBytes ids), x < 256 :=
    zlibCompress_lt_256 _ (tilesToLEBytes_lt_256 ids)
  have hnows : ∀ ch ∈ b64encodeBytes (zlibCompress (tilesToLEBytes ids)), isRustWs ch = false :=
    b64encode_no_ws _ hbytes
  rw [show decode_tiledata (.str ⟨b64encodeBytes (zlibCompress (tilesToLEBytes ids))⟩) w h
      (some .base64) (some .zlib) =
      decode_base64_tiledata (.str ⟨b64encodeBytes (zlibCompress (tilesToLEBytes ids))⟩)
        (some .zlib) from rfl]
  simp only [decode_base64_tiledata, Value.asStr, b64Buffer,
    trimChars_eq_self _ hnows, b64decode_encode _ hbytes, Except.mapError,
    decode_zlib_zlibCompress, chunksToTiles_tilesToLEBytes ids hids]

theorem base64_zlib_roundtrip_witness :
    decode_tiledata (.str ⟨b64encodeBytes (zlibCompress (tilesToLEBytes [1, 2, 305419896]))⟩)
      4 4 (some .base64) (some .zlib) = .ok [1, 2, 305419896] :=
  base64_zlib_roundtrip [1, 2, 305419896] 4 4 (by decide)

/-! ## Claim theorem: object-shape resolution -/

/-- C6: object shapes are resolved by field presence in the declaration order
Point, Ellipse, Polyline, Polygon, Text, Rect — each case below requires all
earlier variants to have failed and the stated variant to match — with the
`Unknown` fallback when no variant matches, and shape decoding never fails on
any value. -/
theorem shape_resolution_spec (fields : List (String × Value)) :
    (∀ b, tryPoint fields = some (.point b) →
        ObjectShape.deserialize (.obj fields) = .ok .point)
  ∧ (tryPoint fields = none → ∀ b wd ht, tryEllipse fields = some (.ellipse b wd ht) →
        ObjectShape.deserialize (.obj fields) = .ok (.ellipse wd ht))
  ∧ (tryPoint fields = none → tryEllipse fields = none →
      ∀ pts, tryPolyline fields = some (.polyline pts) →
        ObjectShape.deserialize (.obj fields) = .ok (.polyline pts))
  ∧ (tryPoint fields = none → tryEllipse fields = none → tryPolyline fields = none →
      ∀ pts, tryPolygon fields = some (.polygon pts) →
        ObjectShape.deserialize (.obj fields) = .ok (.polygon pts))
  ∧ (tryPoint fields = none → tryEllipse fields = none → tryPolyline fields = none →
      tryPolygon fields = none → ∀ t wd ht, tryText fields = some (.text t wd ht) →
        ObjectShape.deserialize (.obj fields) = .ok (.text t wd ht))
  ∧ (tryPoint fields = none → tryEllipse fields = none → tryPolyline fields = none →
      tryPolygon fields = none → tryText fields = none →
      ∀ wd ht, tryRect fields = some (.rect wd ht) →
        ObjectShape.deserialize (.obj fields) = .ok (.rect wd ht))
  ∧ (tryPoint fields = none → tryEllipse fields = none → tryPolyline fields = none →
      tryPolygon fields = none → tryText fields = none → tryRect fields = none →
        ObjectShape.deserialize (.obj fields) = .ok .unknown)
  ∧ (∀ v : Value, ∃ sh, ObjectShape.deserialize v = .ok sh) := by
  refine ⟨?_, ?_, ?_, ?_, ?_, ?_, ?_, fun v => ⟨shapeFromValue v, rfl⟩⟩
  · intro b hb
    simp [ObjectShape.deserialize, shapeFromValue, tryShapeData, hb, ObjectShape.fromData]
  · intro h1 b wd ht he
    simp [ObjectShape.deserialize, shapeFromValue, tryShapeData, h1, he, ObjectShape.fromData]
  · intro h1 h2 pts hp
    simp [ObjectShape.deserialize, shapeFromValue, tryShapeData, h1, h2, hp,
      ObjectShape.fromData]
  · intro h1 h2 h3 pts hp
    simp [ObjectShape.deserialize, shapeFromValue, tryShapeData, h1, h2, h3, hp,
      ObjectShape.fromData]
  · intro h1 h2 h3 h4 t wd ht hwitn
    simp [ObjectShape.deserialize, shapeFromValue, tryShapeData, h1, h2, h3, h4, hwitn,
      ObjectShape.fromData]
  · intro h1 h2 h3 h4 h5 wd ht hr
    simp [ObjectShape.deserialize, shapeFromValue, tryShapeData, h1, h2, h3, h4, h5, hr,
      ObjectShape.fromData]
  · intro h1 h2 h3 h4 h5 h6
    simp [ObjectShape.deserialize, shapeFromValue, tryShapeData, h1, h2, h3, h4, h5, h6]

/-! ## Claim theorems: layer kinds and properties leniency -/

/-- A map record whose single layer carries the unrecognized kind tag
`"grouplayer"` (used to exhibit how an unrecognized layer tag is
classified). -/
def cexMapValue : Value :=
  .obj [("version", .num (.posInt 1)), ("orientation", .str "orthogonal"),
        ("width", .num (.posInt 1)), ("height", .num (.posInt 1)),
        ("tilewidth", .num (.posInt 16)), ("tileheight", .num (.posInt 16)),
        ("tilesets", .arr []),
        ("layers", .arr [.obj [("name", .str "g"), ("opacity", .num (.posInt 1)),
          ("visible", .bool true), ("type", .str "grouplayer")]])]

/-- C7 counterexample: decoding a map whose layer has the unrecognized kind
tag `"grouplayer"` is a hard error, but it is classified as `ParsingError`
(the serde error wrapped by `parse`), not as the `Other`/`FormatError`
variant the claim states. -/
theorem layer_unknown_tag_counterexample :
    parse cexMapValue = .error (.parsingError "unknown variant grouplayer") ∧
      ∀ m, parse cexMapValue ≠ .error (.other m) := by
  refine ⟨rfl, fun m hm => ?_⟩
  rw [show parse cexMapValue = .error (.parsingError "unknown variant grouplayer")
    from rfl] at hm
  simp at hm

/-- C7 (amended): a layer record whose string tag is none of `"tilelayer"`,
`"imagelayer"`, `"objectgroup"` is a hard serde error with no fallback
variant, and a serde error anywhere in the map decode surfaces from `parse`
as `TiledError::ParsingError` (not as the `Other`/FormatError variant). -/
theorem layer_kind_spec (fields : List (String × Value)) (tag : String)
    (htag : lookupField fields "type" = some (.str tag))
    (h1 : tag ≠ "tilelayer") (h2 : tag ≠ "imagelayer") (h3 : tag ≠ "objectgroup") :
    decodeLayerType fields = .error ("unknown variant " ++ tag)
  ∧ (∀ (v : Value) (e : String), decodeMap v = .error e →
      parse v = .error (.parsingError e)) := by
  refine ⟨?_, fun v e hv => ?_⟩
  · simp [decodeLayerType, htag, h1, h2, h3]
  · simp [parse, hv, Except.mapError]

theorem layer_kind_spec_witness :
    decodeLayerType [("type", .str "grouplayer")] = .error ("unknown variant " ++ "grouplayer")
  ∧ (∀ (v : Value) (e : String), decodeMap v = .error e →
      parse v = .error (.parsingError e)) :=
  layer_kind_spec [("type", .str "grouplayer")] "grouplayer" rfl (by decide) (by decide)
    (by decide)

/-- C8: a record with no `properties` field decodes to no properties; a
`properties` value that is not an array, or an array with an element that does
not parse as a `{name, type, value}` record, also decodes to no properties
rather than an error; a parsing array yields the mapping built by inserting
each `(name, property)` pair, and a duplicate name silently overwrites the
earlier entry. -/
theorem properties_leniency :
    (∀ fields : List (String × Value), lookupField fields "properties" = none →
        decodeOptProperties fields = none)
  ∧ (∀ v : Value, (∀ vs, v ≠ .arr vs) → deserialize_properties v = none)
  ∧ (∀ (vs : List Value) (e : String), propsFromList vs = .error e →
        deserialize_properties (.arr vs) = none)
  ∧ (∀ (vs : List Value) (ps : Properties), propsFromList vs = .ok ps →
        deserialize_properties (.arr vs) = some ps)
  ∧ (∀ (m : Properties) (k : String) (p1 p2 : Property),
        getProp (insertProp (insertProp m k p1) k p2) k = some p2) := by
  refine ⟨?_, ?_, ?_, ?_, ?_⟩
  · intro fields h
    simp [decodeOptProperties, h]
  · intro v hv
    cases v with
    | arr vs => exact absurd rfl (hv vs)
    | null => rfl
    | bool b => rfl
    | num n => rfl
    | str s => rfl
    | obj fs => rfl
  · intro vs e h
    simp [deserialize_properties, h, Except.toOption]
  · intro vs ps h
    simp [deserialize_properties, h, Except.toOption]
  · intro m k p1 p2
    simp [getProp, insertProp]

end Tiled
